import Mathlib

/-!
Shallow embedding of the query-string encoder of the `ghttp` repository
(`query/encode.go`).  Go values are embedded as the inductive `Value`;
the Go type `url.Values` is embedded as an association list `UrlValues`
that keeps, for every key, the sequence of values in insertion order;
fallible or panicking code paths surface as an `Option EncErr`
component.  Recursion over arbitrarily nested values is made total with
an explicit fuel parameter that every traversal step consumes: each
traversal function answers `EncErr.outOfFuel` when the fuel runs out,
and every theorem below is stated for all sufficiently large fuels.
-/

namespace GhttpQuery

/-- Embedding of Go `url.Values` (`map[string][]string`), kept as an
association list so that the per-key insertion order of values is
preserved.  The key order of the list is the order in which keys were
first added. -/
abbrev UrlValues := List (String × List String)

/-- Go `url.Values.Add(key, value)`: append `value` to the sequence
held under `key`, creating the key if absent. -/
def UrlValues.add : UrlValues → String → String → UrlValues
  | [], key, v => [(key, [v])]
  | (k, l) :: tl, key, v =>
    if k = key then (k, l ++ [v]) :: tl else (k, l) :: UrlValues.add tl key v

/-- Lookup of the full value sequence of a key (empty when the key is
absent). -/
def UrlValues.get : UrlValues → String → List String
  | [], _ => []
  | (k, l) :: tl, key => if k = key then l else UrlValues.get tl key

/-- Errors and abnormal terminations of the encoder: the
unsupported-kind error of `reflectValue`, an error returned by a custom
`Encoder` (`EncodeValues`) hook or by query-string parsing, an
out-of-bounds slice index (a runtime panic in Go), and fuel exhaustion
of the embedding. -/
inductive EncErr where
  | unsupportedKind (kind : String)
  | custom (msg : String)
  | indexOutOfRange (idx len : Nat)
  | outOfFuel
  deriving Repr, DecidableEq

/-- Embedding of a `time.Time` value through the accessors the encoder
uses: `IsZero`, `Unix` (seconds), `UnixNano`, and `Format` (layout to
rendered text, kept abstract as a function). -/
structure GoTime where
  isZero : Bool
  unixSec : Int
  unixNano : Int
  format : String → String

/-- The `time.RFC3339` layout constant passed to `Format` by default. -/
def rfc3339 : String := "2006-01-02T15:04:05Z07:00"

/-- The struct tags the encoder consults (`reflect.StructTag.Get` for
the keys `query`, `url`, `del` and `layout`; every other key reads as
empty). -/
structure StructTag where
  query : String
  url : String
  del : String
  layout : String

/-- The Go method `reflect.StructTag.Get`. -/
def StructTag.get (t : StructTag) : String → String
  | "query" => t.query
  | "url" => t.url
  | "del" => t.del
  | "layout" => t.layout
  | _ => ""

/-- A tag with all four entries empty. -/
def StructTag.empty : StructTag := ⟨"", "", "", ""⟩

/-- Go map assignment `m[k] = v` on the embedded `map[string]string`. -/
def kvsSet : List (String × String) → String → String → List (String × String)
  | [], k, v => [(k, v)]
  | (k', v') :: rest, k, v =>
    if k' = k then (k, v) :: rest else (k', v') :: kvsSet rest k v

/-- Go map membership check on the embedded `map[string]string`. -/
def kvsHas : List (String × String) → String → Bool
  | [], _ => false
  | (k', _) :: rest, k => if k' = k then true else kvsHas rest k

/-- The Go function `strings.Split` for a one-character separator (the encoder
only ever splits on `","`, `":"`, `"&"` and `"="`), written over the
character list so that it evaluates by kernel reduction. -/
def charSplit (sep : Char) (acc : List Char) : List Char → List String
  | [] => [acc.reverse.asString]
  | c :: cs =>
    if c = sep then acc.reverse.asString :: charSplit sep [] cs
    else charSplit sep (c :: acc) cs

def stringsSplit (s : String) (sep : Char) : List String :=
  charSplit sep [] s.data

/-- The `tagOptions` struct: the option map parsed from the part of a
`query`/`url` tag after the first comma, plus the originating struct
full tag set of the field (used for the sibling `layout` lookup inside
`valueString`). -/
structure TagOptions where
  kvs : List (String × String)
  sf : StructTag

/-- The `contains` method of `*tagOptions`, including the nil-receiver
case (`none`). -/
def optsContains (o : Option TagOptions) (option : String) : Bool :=
  match o with
  | none => false
  | some o => kvsHas o.kvs option

/-- Function `parseTag`: split the tag on commas; the head is the
explicit name, each later non-empty token of the shape `k:v1:v2` sets
the option entry `k` to `"v1:v2"` (only the first colon splits). -/
def parseTag (tag : String) (sf : StructTag) : String × TagOptions :=
  let s := stringsSplit tag ','
  let opts := s.drop 1
  let kvs := opts.foldl
    (fun m v =>
      if v = "" then m
      else
        match stringsSplit v ':' with
        | [] => m
        | k :: rest => kvsSet m k (String.intercalate ":" rest))
    []
  (s.headD "", ⟨kvs, sf⟩)

mutual
/-- Embedding of the Go values the encoder traverses.  `vinvalid` is
the invalid `reflect.Value` (a nil `interface{}`); `vptrNil` a typed
nil pointer; `vbytes` a `[]byte` (modelled as its text and used at the
root, where Go immediately converts it to `string`); `vcustom` a value
whose type implements the `Encoder` interface, carrying its
`EncodeValues` hook (which receives the computed key and the current
values, and returns the updated values or an error) together with the
underlying plain value (consulted by `isEmptyValue` and by root kind
dispatch).  Go map keys are themselves values rendered by
`valueString`, so map entries are value/value pairs. -/
inductive Value where
  | vinvalid : Value
  | vstr : String → Value
  | vbytes : String → Value
  | vint : Int → Value
  | vbool : Bool → Value
  | vtime : GoTime → Value
  | vlist : List Value → Value
  | vmap : List (Value × Value) → Value
  | vstruct : List StructField → Value
  | vptrNil : Value
  | vptr : Value → Value
  | vcustom : (String → UrlValues → UrlValues × Option EncErr) → Value → Value

/-- One struct field as the encoder sees it: declared name, tag set,
anonymity, `PkgPath` (non-empty exactly for unexported fields), and the
value of the field. -/
inductive StructField where
  | mk : (name : String) → (tag : StructTag) → (anonymous : Bool) →
      (pkgPath : String) → (value : Value) → StructField
end

def StructField.name : StructField → String
  | .mk n _ _ _ _ => n

def StructField.tag : StructField → StructTag
  | .mk _ t _ _ _ => t

def StructField.anonymous : StructField → Bool
  | .mk _ _ a _ _ => a

def StructField.pkgPath : StructField → String
  | .mk _ _ _ p _ => p

def StructField.value : StructField → Value
  | .mk _ _ _ _ v => v

/-- Names of `reflect.Kind`, as printed by the unsupported-kind
error. -/
def kindName : Value → String
  | .vinvalid => "invalid"
  | .vstr _ => "string"
  | .vbytes _ => "slice"
  | .vint _ => "int"
  | .vbool _ => "bool"
  | .vtime _ => "struct"
  | .vlist _ => "slice"
  | .vmap _ => "map"
  | .vstruct _ => "struct"
  | .vptrNil => "ptr"
  | .vptr _ => "ptr"
  | .vcustom _ u => kindName u

/-- Function `isEmptyValue`: zero-length containers and strings,
`false`, zero numbers, nil pointers/interfaces, invalid values, and
zero times (via the `zeroable` fallback) are empty; everything else is
not.  A custom-encoder value has the kind of its underlying data. -/
def isEmptyValue : Value → Bool
  | .vinvalid => true
  | .vstr s => s.length = 0
  | .vbytes s => s.length = 0
  | .vint i => i = 0
  | .vbool b => !b
  | .vtime t => t.isZero
  | .vlist es => es.length = 0
  | .vmap es => es.length = 0
  | .vstruct _ => false
  | .vptrNil => true
  | .vptr _ => false
  | .vcustom _ u => isEmptyValue u

/-- The field-level dereferencing loop (`encode.go:238-247`): unwrap
interfaces, then follow pointers, stopping on a nil pointer (which is
kept as-is). -/
def derefField : Value → Value
  | .vptr v => derefField v
  | v => v

/-- Function `valueString`, the scalar renderer.  Pointers are followed
with nil yielding `""`; times honour, first match wins, the `unix`,
`unixmilli`, `unixnano` flags, then a sibling `layout` tag, then
RFC 3339, with the zero time always rendering as `""`; bools honour the
`int` flag; byte slices render as raw text; other scalars use their
decimal or literal form.  The `fmt.Sprint` fallback of Go for aggregate
values (reachable only for pair-mode values or map keys of aggregate
type, which no property below exercises) is not modelled and renders
as `""`. -/
def valueString (v : Value) (opts : Option TagOptions) : String :=
  match v with
  | .vptrNil => ""
  | .vptr inner => valueString inner opts
  | .vtime t =>
    if t.isZero then ""
    else
      match opts with
      | some o =>
        if kvsHas o.kvs "unix" then toString t.unixSec
        else if kvsHas o.kvs "unixmilli" then toString (Int.tdiv t.unixNano 1000000)
        else if kvsHas o.kvs "unixnano" then toString t.unixNano
        else if o.sf.get "layout" ≠ "" then t.format (o.sf.get "layout")
        else t.format rfc3339
      | none => t.format rfc3339
  | .vbool b =>
    match opts with
    | some o =>
      if kvsHas o.kvs "int" then (if b then "1" else "0")
      else (if b then "true" else "false")
    | none => if b then "true" else "false"
  | .vbytes s => s
  | .vstr s => s
  | .vint i => toString i
  | .vinvalid => ""
  | .vlist _ => ""
  | .vmap _ => ""
  | .vstruct _ => ""
  | .vcustom _ _ => ""

/-- The package-level `defaultScopeJoiner`:
`scope + "[" + name + "]"`.  (`SetScopeJoiner` is never called in the
repository, so the default is modelled as fixed.) -/
def defaultScopeJoiner (scope name : String) : String :=
  scope ++ "[" ++ name ++ "]"

/-- The Go function `reflect.Indirect`: follow exactly one pointer; a nil pointer
gives the invalid value (`none`). -/
def indirect : Value → Option Value
  | .vptrNil => none
  | .vptr v => some v
  | v => some v

/-- The delimiter-joining loop of the slice branch of `reflectStruct`
(`encode.go:277-287`): write each rendered element, preceded by the
delimiter except for the first. -/
def delimJoinAux (del : String) (opts : Option TagOptions) (first : Bool)
    (acc : String) : List Value → String
  | [] => acc
  | e :: es =>
    delimJoinAux del opts false
      (if first then acc ++ valueString e opts else acc ++ del ++ valueString e opts) es

def delimJoin (del : String) (opts : Option TagOptions) (elems : List Value) : String :=
  delimJoinAux del opts true "" elems

mutual
/-- Function `reflectStruct`: process the direct fields (collecting the
promoted embedded structs), then — unless a field aborted with an
error — the embedded structs at the same scope and depth. -/
def reflectStruct (fuel : Nat) (values : UrlValues) (fields : List StructField)
    (scope : String) (count : Nat) : UrlValues × Option EncErr :=
  match fuel with
  | 0 => (values, some .outOfFuel)
  | f + 1 =>
    match reflectStructFields f values fields scope count with
    | (v, _, some e) => (v, some e)
    | (v, embedded, none) => reflectEmbedded f v embedded scope count
termination_by structural fuel

/-- The field loop of `reflectStruct` (`encode.go:181-330`).  Returns
the updated values, the queued embedded field lists in encounter order,
and the first error (which aborts the loop at once). -/
def reflectStructFields (fuel : Nat) (values : UrlValues) (fields : List StructField)
    (scope : String) (count : Nat) :
    UrlValues × List (List StructField) × Option EncErr :=
  match fuel with
  | 0 => (values, [], some .outOfFuel)
  | f + 1 =>
    match fields with
    | [] => (values, [], none)
    | sf :: rest =>
      if sf.pkgPath ≠ "" && !sf.anonymous then
        reflectStructFields f values rest scope count
      else
        let tag := if sf.tag.get "query" ≠ "" then sf.tag.get "query" else sf.tag.get "url"
        if tag = "-" then reflectStructFields f values rest scope count
        else
          let sv := sf.value
          let (fieldName, opts) := parseTag tag sf.tag
          let embFields : Option (List StructField) :=
            if fieldName = "" && sf.anonymous then
              match indirect sv with
              | some (.vstruct fs) => some fs
              -- a `time.Time` has struct kind; its fields are all unexported
              | some (.vtime _) => some []
              | _ => none
            else none
          match embFields with
          | some fs =>
            match reflectStructFields f values rest scope count with
            | (v, emb, err) => (v, fs :: emb, err)
          | none =>
            let name0 := if fieldName = "" then sf.name else fieldName
            let name := if scope ≠ "" then scope ++ "[" ++ name0 ++ "]" else name0
            if optsContains (some opts) "omitempty" && isEmptyValue sv then
              reflectStructFields f values rest scope count
            else
              match sv with
              | .vcustom enc _ =>
                match enc name values with
                | (v, some e) => (v, [], some e)
                | (v, none) => reflectStructFields f v rest scope count
              | _ =>
                match derefField sv with
                | .vtime t =>
                  reflectStructFields f
                    (values.add name (valueString (.vtime t) (some opts))) rest scope count
                | .vlist elems =>
                  if elems.length = 0 then
                    reflectStructFields f values rest scope count
                  else
                    let (del, name1) :=
                      if optsContains (some opts) "comma" then (",", name)
                      else if optsContains (some opts) "space" then (" ", name)
                      else if optsContains (some opts) "semicolon" then (";", name)
                      else if optsContains (some opts) "brackets" then ("", name ++ "[]")
                      else (sf.tag.get "del", name)
                    if del ≠ "" then
                      reflectStructFields f
                        (values.add name1 (delimJoin del (some opts) elems)) rest scope count
                    else
                      match reflectStructSliceLoop f values elems name1 count opts 0 with
                      | (v, some e) => (v, [], some e)
                      | (v, none) => reflectStructFields f v rest scope count
                | .vmap entries =>
                  let nextScope :=
                    if fieldName = "" && optsContains (some opts) "inline" then
                      (if count > 0 then scope else "")
                    else name
                  match reflectMap f values entries nextScope (count + 1) (some opts) with
                  | (v, some e) => (v, [], some e)
                  | (v, none) => reflectStructFields f v rest scope count
                | .vstruct innerFields =>
                  let nextScope :=
                    if fieldName = "" && optsContains (some opts) "inline" then
                      (if count > 0 then scope else "")
                    else name
                  match reflectStruct f values innerFields nextScope (count + 1) with
                  | (v, some e) => (v, [], some e)
                  | (v, none) => reflectStructFields f v rest scope count
                | dsv =>
                  reflectStructFields f
                    (values.add name (valueString dsv (some opts))) rest scope count
termination_by structural fuel

/-- The per-element loop of the unjoined slice branch of
`reflectStruct` (`encode.go:290-306`): numbered / indexed / repeated
key, container elements handled by `handleSliceValue`, scalar elements
added directly. -/
def reflectStructSliceLoop (fuel : Nat) (values : UrlValues) (elems : List Value)
    (name : String) (count : Nat) (opts : TagOptions) (j : Nat) :
    UrlValues × Option EncErr :=
  match fuel with
  | 0 => (values, some .outOfFuel)
  | f + 1 =>
    if h : j < elems.length then
      let k :=
        if optsContains (some opts) "numbered" then name ++ toString j
        else if optsContains (some opts) "idx" then name ++ "[" ++ toString j ++ "]"
        else name
      let sv := elems[j]
      match handleSliceValue f values sv k count (some opts) with
      | (v, _, some e) => (v, some e)
      | (v, already, none) =>
        let v := if !already then v.add k (valueString sv (some opts)) else v
        reflectStructSliceLoop f v elems name count opts (j + 1)
    else (values, none)
termination_by structural fuel

/-- Processing of the queued embedded structs (`encode.go:332-336`):
same scope and depth as the enclosing struct, first error aborts. -/
def reflectEmbedded (fuel : Nat) (values : UrlValues) (embedded : List (List StructField))
    (scope : String) (count : Nat) : UrlValues × Option EncErr :=
  match fuel with
  | 0 => (values, some .outOfFuel)
  | f + 1 =>
    match embedded with
    | [] => (values, none)
    | fs :: rest =>
      match reflectStruct f values fs scope count with
      | (v, some e) => (v, some e)
      | (v, none) => reflectEmbedded f v rest scope count
termination_by structural fuel

/-- Function `reflectSlice` (`encode.go:411-445`). -/
def reflectSlice (fuel : Nat) (values : UrlValues) (elems : List Value)
    (scope : String) (count : Nat) (opts : Option TagOptions) :
    UrlValues × Option EncErr :=
  match fuel with
  | 0 => (values, some .outOfFuel)
  | f + 1 =>
    if elems.length = 0 then (values, none)
    else reflectSliceLoop f values elems scope count opts 0
termination_by structural fuel

/-- The index loop of `reflectSlice`.  Elements claimed by
`handleSliceValue` are skipped; otherwise the element at `i` is paired
with the one at `i + 1`.  The scoped branch guards the second access
only with `endIndex > l`, so on a trailing unpaired element the access
`val.Index(endIndex)` is out of bounds: the embedding returns
`EncErr.indexOutOfRange` where the Go code panics.  The unscoped branch
guards with `endIndex > l - 1` and instead drops the trailing
element. -/
def reflectSliceLoop (fuel : Nat) (values : UrlValues) (elems : List Value)
    (scope : String) (count : Nat) (opts : Option TagOptions) (i : Nat) :
    UrlValues × Option EncErr :=
  match fuel with
  | 0 => (values, some .outOfFuel)
  | f + 1 =>
    if h : i < elems.length then
      let sv := elems[i]
      match handleSliceValue f values sv scope count opts with
      | (v, _, some e) => (v, some e)
      | (v, already, none) =>
        if already then reflectSliceLoop f v elems scope count opts (i + 1)
        else
          let endIndex := i + 1
          if endIndex > elems.length then
            reflectSliceLoop f v elems scope count opts (i + 1)
          else if scope ≠ "" then
            let v := v.add scope (valueString sv none)
            match elems[endIndex]? with
            | none => (v, some (.indexOutOfRange endIndex elems.length))
            | some e2 =>
              reflectSliceLoop f (v.add scope (valueString e2 none))
                elems scope count opts (i + 2)
          else
            if endIndex > elems.length - 1 then
              reflectSliceLoop f v elems scope count opts (i + 1)
            else
              let key := valueString sv none
              match elems[endIndex]? with
              | none => (v, some (.indexOutOfRange endIndex elems.length))
              | some e2 =>
                reflectSliceLoop f (v.add key (valueString e2 none))
                  elems scope count opts (i + 2)
    else (values, none)
termination_by structural fuel

/-- Function `reflectMap` (`encode.go:447-495`). -/
def reflectMap (fuel : Nat) (values : UrlValues) (entries : List (Value × Value))
    (scope : String) (count : Nat) (opts : Option TagOptions) :
    UrlValues × Option EncErr :=
  match fuel with
  | 0 => (values, some .outOfFuel)
  | f + 1 => reflectMapLoop f values entries scope count opts
termination_by structural fuel

/-- The entry loop of `reflectMap`: empty values are skipped, the key
is the rendered map key joined onto a non-empty scope, and the value is
dispatched exactly as a struct field value would be. -/
def reflectMapLoop (fuel : Nat) (values : UrlValues) (entries : List (Value × Value))
    (scope : String) (count : Nat) (opts : Option TagOptions) :
    UrlValues × Option EncErr :=
  match fuel with
  | 0 => (values, some .outOfFuel)
  | f + 1 =>
    match entries with
    | [] => (values, none)
    | (k, sv0) :: rest =>
      if isEmptyValue sv0 then reflectMapLoop f values rest scope count opts
      else
        let key0 := valueString k none
        let key := if scope ≠ "" then defaultScopeJoiner scope key0 else key0
        match derefField sv0 with
        | .vtime t =>
          reflectMapLoop f (values.add key (valueString (.vtime t) opts)) rest scope count opts
        | .vmap es =>
          match reflectMap f values es key (count + 1) opts with
          | (v, some e) => (v, some e)
          | (v, none) => reflectMapLoop f v rest scope count opts
        | .vlist es =>
          match reflectSlice f values es key (count + 1) opts with
          | (v, some e) => (v, some e)
          | (v, none) => reflectMapLoop f v rest scope count opts
        | .vstruct fs =>
          match reflectStruct f values fs key (count + 1) with
          | (v, some e) => (v, some e)
          | (v, none) => reflectMapLoop f v rest scope count opts
        | dsv =>
          reflectMapLoop f (values.add key (valueString dsv opts)) rest scope count opts
termination_by structural fuel

/-- Function `handleSliceValue` (`encode.go:372-409`): empty elements
are claimed without output; container elements recurse (maps, slices,
structs other than `time.Time`) and are claimed; times and scalars are
left to the caller. -/
def handleSliceValue (fuel : Nat) (values : UrlValues) (sv : Value) (scope : String)
    (count : Nat) (opts : Option TagOptions) : UrlValues × Bool × Option EncErr :=
  match fuel with
  | 0 => (values, false, some .outOfFuel)
  | f + 1 =>
    if isEmptyValue sv then (values, true, none)
    else
      match derefField sv with
      | .vmap es =>
        match reflectMap f values es scope (count + 1) opts with
        | (v, some e) => (v, false, some e)
        | (v, none) => (v, true, none)
      | .vlist es =>
        match reflectSlice f values es scope (count + 1) opts with
        | (v, some e) => (v, false, some e)
        | (v, none) => (v, true, none)
      | .vtime _ => (values, false, none)
      | .vstruct fs =>
        match reflectStruct f values fs scope (count + 1) with
        | (v, some e) => (v, false, some e)
        | (v, none) => (v, true, none)
      | _ => (values, false, none)
termination_by structural fuel
end

/-- Function `reflectValue` (`encode.go:161-172`): kind dispatch at the
root.  A `time.Time` has struct kind and only unexported fields, so it
lands in `reflectStruct` with no visible fields; a value with a custom
encoder has the kind of its underlying data. -/
def reflectValue (fuel : Nat) (values : UrlValues) : Value → UrlValues × Option EncErr
  | .vmap entries => reflectMap fuel values entries "" 0 none
  | .vlist elems => reflectSlice fuel values elems "" 0 none
  | .vstruct fields => reflectStruct fuel values fields "" 0
  | .vtime _ => reflectStruct fuel values [] "" 0
  | .vcustom _ u => reflectValue fuel values u
  | v => (values, some (.unsupportedKind (kindName v)))

/-!
The string root path: `parseQueryString` and the Go function `url.ParseQuery`.
The standard-library pieces (`url.ParseQuery`, `url.QueryUnescape`,
`url.Values.Encode`, `url.QueryEscape`) are modelled character-wise,
faithful for ASCII text; the byte-wise percent-encoding of multi-byte
UTF-8 sequences is not modelled (no property below uses non-ASCII
text).
-/

/-- Hex digit value, as the unescaper of the `url` package accepts it
(digits, lower-case and upper-case letters, by code point). -/
def unhexDigit (c : Char) : Option Nat :=
  let n := c.toNat
  if 48 ≤ n && n ≤ 57 then some (n - 48)
  else if 97 ≤ n && n ≤ 102 then some (n - 87)
  else if 65 ≤ n && n ≤ 70 then some (n - 55)
  else none

/-- The Go function `url.QueryUnescape` on a character list: a plus becomes a
space, a percent followed by two hex digits becomes that byte, and a
malformed escape is an error (`none`). -/
def queryUnescapeChars : List Char → Option (List Char)
  | [] => some []
  | '%' :: a :: b :: rest =>
    match unhexDigit a, unhexDigit b, queryUnescapeChars rest with
    | some x, some y, some tl => some (Char.ofNat (16 * x + y) :: tl)
    | _, _, _ => none
  | '%' :: _ => none
  | '+' :: rest => (queryUnescapeChars rest).map (fun tl => ' ' :: tl)
  | c :: rest => (queryUnescapeChars rest).map (fun tl => c :: tl)

def queryUnescape (s : String) : Option String :=
  (queryUnescapeChars s.data).map List.asString

/-- The Go idiom `strings.Cut(s, "=")`: the text before the first `=` and
everything after it (`""` when there is no `=`). -/
def cutEq (s : String) : String × String :=
  match stringsSplit s '=' with
  | [] => (s, "")
  | k :: rest => (k, String.intercalate "=" rest)

/-- The loop of the Go function `url.parseQuery`: segments between ampersands; a
segment containing a semicolon is rejected, an empty segment skipped, a
segment with a malformed escape dropped; the first error is kept while
parsing continues. -/
def parseQuerySegs (m : UrlValues) (err : Option EncErr) :
    List String → UrlValues × Option EncErr
  | [] => (m, err)
  | seg :: rest =>
    if seg.data.contains ';' then
      parseQuerySegs m
        (match err with
         | some e => some e
         | none => some (.custom "invalid semicolon separator in query")) rest
    else if seg = "" then parseQuerySegs m err rest
    else
      let (k, v) := cutEq seg
      match queryUnescape k, queryUnescape v with
      | some k, some v => parseQuerySegs (m.add k v) err rest
      | _, _ =>
        parseQuerySegs m
          (match err with
           | some e => some e
           | none => some (.custom "invalid URL escape")) rest

/-- The Go idiom `strings.TrimLeft(s, "?")`: drop every leading question
mark. -/
def trimLeftQM (s : String) : String :=
  (s.data.dropWhile (· = '?')).asString

/-- Function `parseQueryString` (`encode.go:157-159`):
`url.ParseQuery(strings.TrimLeft(queryString, "?"))`. -/
def parseQueryString (queryString : String) : UrlValues × Option EncErr :=
  parseQuerySegs [] none (stringsSplit (trimLeftQM queryString) '&')

/-- The pointer-dereferencing loop at the root of `Values`
(`encode.go:137-142`), followed by the type switch: a nil pointer gives
the empty result with no error, strings and byte slices are parsed as
pre-formed query text, anything else goes through `reflectValue`.
(The `case url.Values` of the switch, which returns a `url.Values` root
verbatim, has no counterpart in the `Value` type and is not
modelled.) -/
def ValuesDeref (fuel : Nat) (values : UrlValues) : Value → UrlValues × Option EncErr
  | .vptrNil => (values, none)
  | .vptr v => ValuesDeref fuel values v
  | .vstr s => parseQueryString s
  | .vbytes s => parseQueryString s
  | v => reflectValue fuel values v

/-- Function `Values` (`encode.go:129-155`): a nil root yields the
fresh empty values with no error; otherwise pointers are dereferenced
and the root dispatched. -/
def Values (fuel : Nat) (v : Value) : UrlValues × Option EncErr :=
  let values : UrlValues := []
  match v with
  | .vinvalid => (values, none)
  | _ => ValuesDeref fuel values v

/-!
The Go method `url.Values.Encode`, the renderer the repository feeds the
multimap into (`calloption.go` uses `values.Encode()` to build
`RawQuery`): keys sorted, key/value pairs percent-escaped and joined
with `=` and `&`.
-/

/-- The upper-case hex digit table of the `url` package
(`upperhex = "0123456789ABCDEF"`). -/
def hexUpperDigit (n : Nat) : Char :=
  "0123456789ABCDEF".data.getD n '0'

/-- The characters `url.QueryEscape` leaves alone: ASCII letters,
digits, and `-`, `_`, `.`, `~`. -/
def isUnreservedQueryChar (c : Char) : Bool :=
  ('a' ≤ c && c ≤ 'z') || ('A' ≤ c && c ≤ 'Z') || ('0' ≤ c && c ≤ '9') ||
    c = '-' || c = '_' || c = '.' || c = '~'

def queryEscapeChar (c : Char) : List Char :=
  if isUnreservedQueryChar c then [c]
  else if c = ' ' then ['+']
  else ['%', hexUpperDigit (c.toNat / 16 % 16), hexUpperDigit (c.toNat % 16)]

def queryEscape (s : String) : String :=
  (s.data.flatMap queryEscapeChar).asString

/-- Lexicographic string comparison, as the sort of `Encode` orders
keys (byte-wise in Go, character-wise here; identical on ASCII). -/
def charListLe : List Char → List Char → Bool
  | [], _ => true
  | _ :: _, [] => false
  | a :: as, b :: bs =>
    if a.toNat = b.toNat then charListLe as bs else Nat.blt a.toNat b.toNat

/-- Insertion of one key into the sorted key list of `Encode`. -/
def insertSortedByKey (x : String × List String) : UrlValues → UrlValues
  | [] => [x]
  | y :: ys => if charListLe x.1.data y.1.data then x :: y :: ys else y :: insertSortedByKey x ys

def sortByKey (vs : UrlValues) : UrlValues :=
  vs.foldr insertSortedByKey []

/-- The pair-writing loop of `Encode`: every `key=value` piece,
ampersand-separated, keys in sorted order, both sides query-escaped. -/
def encodePairs (acc : String) : List (String × String) → String
  | [] => acc
  | (k, v) :: rest =>
    let piece := queryEscape k ++ "=" ++ queryEscape v
    encodePairs (if acc = "" then piece else acc ++ "&" ++ piece) rest

def UrlValues.encode (vs : UrlValues) : String :=
  encodePairs "" ((sortByKey vs).flatMap (fun kv => kv.2.map (fun v => (kv.1, v))))

/-- Claim-side description of root pair mode, following the
wording of the specification: consume the elements two at a time, the first of
each pair as the key and the second as the value, dropping a trailing
unpaired element.  Used to compare the specified pair mode with what
`reflectSlice` computes. -/
def pairModeClaim : UrlValues → List String → UrlValues
  | vs, k :: v :: rest => pairModeClaim (vs.add k v) rest
  | vs, _ => vs

/-! Theorems settling the claims. -/

/-- C3: the claim asserts that every index access performed during
slice traversal is in bounds.  The code violates it: on the ordinary
input `{"a": ["x"]}` — a map entry whose value is a one-element slice
of strings — the scoped branch of `reflectSlice` checks only
`endIndex > l` before reading index `endIndex = 1` of the length-1
slice, so the embedded indexing yields `none` and the encoder answers
`indexOutOfRange` where the Go original panics.  (The unscoped branch
guards the same read with `endIndex > l-1`; the scoped guard is an
off-by-one slip.) -/
theorem C3_scoped_slice_panic :
    Values 100 (.vmap [(.vstr "a", .vlist [.vstr "x"])]) =
      ([("a", ["x"])], some (.indexOutOfRange 1 1)) := by decide

/-- C4 counterexample: the claim says the first-declared join-style
flag wins, so the tag `,space,comma` would join with a space.  The
options are kept in a map and `reflectStruct` tests `comma` first, so
the elements are joined with a comma instead. -/
theorem C4_counterexample :
    Values 100 (.vstruct [StructField.mk "V" ⟨",space,comma", "", "", ""⟩ false ""
        (.vlist [.vstr "x", .vstr "y"])]) = ([("V", ["x,y"])], none) ∧
    ¬ Values 100 (.vstruct [StructField.mk "V" ⟨",space,comma", "", "", ""⟩ false ""
        (.vlist [.vstr "x", .vstr "y"])]) = ([("V", ["x y"])], none) := by decide

/-- C4 amended: when several of the mutually exclusive join-style flags
are declared, the winner is decided by the fixed checking order
comma, then space, then semicolon, then brackets — independently of
declaration order. -/
theorem C4_fixed_flag_priority :
    Values 100 (.vstruct [StructField.mk "V" ⟨",space,comma", "", "", ""⟩ false ""
        (.vlist [.vstr "x", .vstr "y"])]) = ([("V", ["x,y"])], none) ∧
    Values 100 (.vstruct [StructField.mk "V" ⟨",comma,space", "", "", ""⟩ false ""
        (.vlist [.vstr "x", .vstr "y"])]) = ([("V", ["x,y"])], none) ∧
    Values 100 (.vstruct [StructField.mk "V" ⟨",brackets,semicolon", "", "", ""⟩ false ""
        (.vlist [.vstr "x", .vstr "y"])]) = ([("V", ["x;y"])], none) ∧
    Values 100 (.vstruct [StructField.mk "V" ⟨",semicolon,brackets", "", "", ""⟩ false ""
        (.vlist [.vstr "x", .vstr "y"])]) = ([("V", ["x;y"])], none) ∧
    Values 100 (.vstruct [StructField.mk "V" ⟨",brackets,space", "", "", ""⟩ false ""
        (.vlist [.vstr "x", .vstr "y"])]) = ([("V", ["x y"])], none) ∧
    Values 100 (.vstruct [StructField.mk "V" ⟨",semicolon,space", "", "", ""⟩ false ""
        (.vlist [.vstr "x", .vstr "y"])]) = ([("V", ["x y"])], none) := by decide

/-- C6 counterexample: the claim includes nil roots and nil pointers
among the values that fail with an unsupported-kind error, but `Values`
returns the fresh empty multimap with no error for both. -/
theorem C6_counterexample :
    Values 100 .vptrNil = ([], none) ∧
    Values 100 .vinvalid = ([], none) ∧
    (Values 100 .vptrNil).2 ≠ some (.unsupportedKind "ptr") := by decide

/-- C6 amended: a non-nil root that after pointer dereferencing has a
kind outside string, byte slice, map, slice/array and struct — an int
or bool, also behind a pointer or as the data of a custom encoder —
fails with the unsupported-kind error; a nil root, a nil pointer, and a
pointer to a nil pointer instead yield the empty multimap with no
error. -/
theorem C6_unsupported_roots (fuel : Nat) (i : Int) (b : Bool) :
    Values fuel (.vint i) = ([], some (.unsupportedKind "int")) ∧
    Values fuel (.vbool b) = ([], some (.unsupportedKind "bool")) ∧
    Values fuel (.vptr (.vint i)) = ([], some (.unsupportedKind "int")) ∧
    Values fuel (.vcustom (fun _ w => (w, none)) (.vint i)) =
      ([], some (.unsupportedKind "int")) ∧
    Values fuel .vinvalid = ([], none) ∧
    Values fuel .vptrNil = ([], none) ∧
    Values fuel (.vptr .vptrNil) = ([], none) := by
  refine ⟨?_, ?_, ?_, ?_, rfl, rfl, rfl⟩ <;>
    simp [Values, ValuesDeref, reflectValue, kindName]

/-- C5: a custom encoder hook that returns an error aborts the encode
with exactly that error.  First conjunct: at any traversal state — any
already-written `vs`, any scope and depth, any later fields `fs2` — a
field whose `EncodeValues` hook fails with `err` makes the field loop
stop at once, returning `vs` untouched and exactly `err`, without
visiting `fs2`.  Second conjunct, at the `Values` level: an earlier
field has written `a = 1`, the failing field aborts the whole encode
with `err`, and the earlier key is still present in the returned
multimap. -/
theorem C5_custom_encoder_error (fuel count : Nat) (vs : UrlValues)
    (fs2 : List StructField) (scope n : String) (u : Value) (err : EncErr) :
    reflectStructFields (fuel + 1) vs
      (StructField.mk n ⟨"", "", "", ""⟩ false ""
        (.vcustom (fun _ w => (w, some err)) u) :: fs2) scope count = (vs, [], some err) ∧
    Values (fuel + 3) (.vstruct
      (StructField.mk "A" ⟨"a", "", "", ""⟩ false "" (.vstr "1") ::
       StructField.mk n ⟨"", "", "", ""⟩ false ""
         (.vcustom (fun _ w => (w, some err)) u) :: fs2)) =
      ([("a", ["1"])], some err) := by
  constructor
  · simp [reflectStructFields, parseTag, stringsSplit, charSplit, StructField.pkgPath,
      StructField.anonymous, StructField.tag, StructField.name, StructField.value,
      StructTag.get, optsContains, kvsHas, isEmptyValue, indirect]
  · have hpA : parseTag "a" ⟨"a", "", "", ""⟩ = ("a", ⟨[], ⟨"a", "", "", ""⟩⟩) := rfl
    have hp0 : parseTag "" ⟨"", "", "", ""⟩ = ("", ⟨[], ⟨"", "", "", ""⟩⟩) := rfl
    simp [Values, ValuesDeref, reflectValue, reflectStruct, reflectStructFields,
      hpA, hp0, StructField.pkgPath, StructField.anonymous,
      StructField.tag, StructField.name, StructField.value, StructTag.get,
      optsContains, kvsHas, isEmptyValue, indirect, derefField, valueString, UrlValues.add]

/-- C10: the flat map with entries `a = 1` and `b = 2` encodes to the
multimap with exactly those single-valued keys; rendering that multimap
with the `Encode` renderer gives `a=1&b=2`, and feeding the rendered
text back into `Values` through the string-root path (strip the leading
question marks, split on `&` then `=`) reproduces an equal multimap. -/
theorem C10_flat_map_roundtrip :
    Values 100 (.vmap [(.vstr "a", .vstr "1"), (.vstr "b", .vstr "2")]) =
      ([("a", ["1"]), ("b", ["2"])], none) ∧
    UrlValues.encode [("a", ["1"]), ("b", ["2"])] = "a=1&b=2" ∧
    Values 100 (.vstr (UrlValues.encode [("a", ["1"]), ("b", ["2"])])) =
      ([("a", ["1"]), ("b", ["2"])], none) := by decide

/-- C1 counterexample: the claim gives the sibling `del` annotation
priority over the comma flag, so a field carrying both `del:"!"` and
the comma flag would join with `!`.  The code tests the comma flag
first and only reads the `del` tag in the final else branch, so the
elements are joined with a comma. -/
theorem C1_counterexample :
    Values 100 (.vstruct [StructField.mk "V" ⟨",comma", "", "!", ""⟩ false ""
        (.vlist [.vstr "x", .vstr "y"])]) = ([("V", ["x,y"])], none) ∧
    ¬ Values 100 (.vstruct [StructField.mk "V" ⟨",comma", "", "!", ""⟩ false ""
        (.vlist [.vstr "x", .vstr "y"])]) = ([("V", ["x!y"])], none) := by decide

set_option maxHeartbeats 2000000 in
/-- C1 amended: for a non-empty slice field the join mode is chosen by
the priority comma flag, then space, then semicolon, then brackets
(key becomes `name[]`, one value per element), then the sibling `del`
annotation, and only then the default of repeating the key once per
element (with a numeric suffix under `numbered`, a bracketed index
under `idx`); in particular a custom delimiter loses to the comma flag
and beats the numbered/indexed defaults. -/
theorem C1_join_priority (fuel : Nat) (d : String) :
    Values (fuel + 5) (.vstruct [StructField.mk "V" ⟨",comma,space,semicolon,brackets", "", d, ""⟩
        false "" (.vlist [.vstr "x", .vstr "y"])]) = ([("V", ["x,y"])], none) ∧
    Values (fuel + 5) (.vstruct [StructField.mk "V" ⟨",comma", "", d, ""⟩
        false "" (.vlist [.vstr "x", .vstr "y"])]) = ([("V", ["x,y"])], none) ∧
    Values (fuel + 5) (.vstruct [StructField.mk "V" ⟨",space,semicolon,brackets", "", d, ""⟩
        false "" (.vlist [.vstr "x", .vstr "y"])]) = ([("V", ["x y"])], none) ∧
    Values (fuel + 5) (.vstruct [StructField.mk "V" ⟨",semicolon,brackets", "", d, ""⟩
        false "" (.vlist [.vstr "x", .vstr "y"])]) = ([("V", ["x;y"])], none) ∧
    Values (fuel + 5) (.vstruct [StructField.mk "V" ⟨",brackets", "", d, ""⟩
        false "" (.vlist [.vstr "x", .vstr "y"])]) = ([("V[]", ["x", "y"])], none) ∧
    (d ≠ "" →
      Values (fuel + 5) (.vstruct [StructField.mk "V" ⟨"", "", d, ""⟩
          false "" (.vlist [.vstr "x", .vstr "y"])]) = ([("V", ["x" ++ d ++ "y"])], none) ∧
      Values (fuel + 5) (.vstruct [StructField.mk "V" ⟨",numbered", "", d, ""⟩
          false "" (.vlist [.vstr "x", .vstr "y"])]) = ([("V", ["x" ++ d ++ "y"])], none)) ∧
    Values (fuel + 5) (.vstruct [StructField.mk "V" ⟨",numbered", "", "", ""⟩
        false "" (.vlist [.vstr "x", .vstr "y"])]) = ([("V0", ["x"]), ("V1", ["y"])], none) ∧
    Values (fuel + 5) (.vstruct [StructField.mk "V" ⟨",idx", "", "", ""⟩
        false "" (.vlist [.vstr "x", .vstr "y"])]) = ([("V[0]", ["x"]), ("V[1]", ["y"])], none) ∧
    Values (fuel + 5) (.vstruct [StructField.mk "V" ⟨"", "", "", ""⟩
        false "" (.vlist [.vstr "x", .vstr "y"])]) = ([("V", ["x", "y"])], none) := by
  have h1 : parseTag ",comma,space,semicolon,brackets" ⟨",comma,space,semicolon,brackets", "", d, ""⟩ =
      ("", ⟨[("comma", ""), ("space", ""), ("semicolon", ""), ("brackets", "")],
        ⟨",comma,space,semicolon,brackets", "", d, ""⟩⟩) := rfl
  have h2 : parseTag ",comma" ⟨",comma", "", d, ""⟩ =
      ("", ⟨[("comma", "")], ⟨",comma", "", d, ""⟩⟩) := rfl
  have h3 : parseTag ",space,semicolon,brackets" ⟨",space,semicolon,brackets", "", d, ""⟩ =
      ("", ⟨[("space", ""), ("semicolon", ""), ("brackets", "")],
        ⟨",space,semicolon,brackets", "", d, ""⟩⟩) := rfl
  have h4 : parseTag ",semicolon,brackets" ⟨",semicolon,brackets", "", d, ""⟩ =
      ("", ⟨[("semicolon", ""), ("brackets", "")], ⟨",semicolon,brackets", "", d, ""⟩⟩) := rfl
  have h5 : parseTag ",brackets" ⟨",brackets", "", d, ""⟩ =
      ("", ⟨[("brackets", "")], ⟨",brackets", "", d, ""⟩⟩) := rfl
  have h6 : parseTag "" ⟨"", "", d, ""⟩ = ("", ⟨[], ⟨"", "", d, ""⟩⟩) := rfl
  have h7 : parseTag ",numbered" ⟨",numbered", "", d, ""⟩ =
      ("", ⟨[("numbered", "")], ⟨",numbered", "", d, ""⟩⟩) := rfl
  have h8 : parseTag ",numbered" ⟨",numbered", "", "", ""⟩ =
      ("", ⟨[("numbered", "")], ⟨",numbered", "", "", ""⟩⟩) := rfl
  have h9 : parseTag ",idx" ⟨",idx", "", "", ""⟩ =
      ("", ⟨[("idx", "")], ⟨",idx", "", "", ""⟩⟩) := rfl
  have h10 : parseTag "" ⟨"", "", "", ""⟩ = ("", ⟨[], ⟨"", "", "", ""⟩⟩) := rfl
  refine ⟨?_, ?_, ?_, ?_, ?_, fun hd => ⟨?_, ?_⟩, ?_, ?_, ?_⟩ <;>
    simp +decide [Values, ValuesDeref, reflectValue, reflectStruct, reflectStructFields,
      reflectEmbedded, reflectStructSliceLoop, handleSliceValue,
      h1, h2, h3, h4, h5, h6, h7, h8, h9, h10, StructField.pkgPath, StructField.anonymous,
      StructField.tag, StructField.name, StructField.value, StructTag.get, optsContains,
      kvsHas, isEmptyValue, derefField, valueString, indirect, UrlValues.add,
      delimJoin, delimJoinAux, *]

/-- C1 witness: the custom-delimiter clauses of `C1_join_priority`
applied at the concrete delimiter `!`. -/
theorem C1_join_priority_witness :
    Values 5 (.vstruct [StructField.mk "V" ⟨"", "", "!", ""⟩ false ""
        (.vlist [.vstr "x", .vstr "y"])]) = ([("V", ["x!y"])], none) ∧
    Values 5 (.vstruct [StructField.mk "V" ⟨",numbered", "", "!", ""⟩ false ""
        (.vlist [.vstr "x", .vstr "y"])]) = ([("V", ["x!y"])], none) := by
  have h := (C1_join_priority 0 "!").2.2.2.2.2.1 (by decide)
  exact ⟨by rw [h.1]; decide, by rw [h.2]; decide⟩

/-- C2 counterexample: the claim says a zero-valued field without
omit-on-empty still contributes one empty-string value under its key,
for every kind including slices.  An empty slice field is skipped
unconditionally, so its key is absent. -/
theorem C2_counterexample :
    Values 100 (.vstruct [StructField.mk "V" ⟨"", "", "", ""⟩ false ""
        (.vlist [])]) = ([], none) ∧
    (Values 100 (.vstruct [StructField.mk "V" ⟨"", "", "", ""⟩ false ""
        (.vlist [])])).1.get "V" ≠ [""] := by decide

set_option maxHeartbeats 2000000 in
/-- C2 amended: with omit-on-empty requested, every empty field is
skipped and its key absent.  Without it, a zero value still reaches the
renderer, but only string, zero-time and nil-pointer fields contribute
an empty-string value; a zero int renders as `0` and a false bool as
`false`, an empty slice field is skipped unconditionally, and empty
map or struct fields traverse no entries and so produce no key
either. -/
theorem C2_zero_value_fields (fuel : Nat) (n : String) :
    Values (fuel + 5) (.vstruct [StructField.mk n ⟨"", "", "", ""⟩ false ""
        (.vstr "")]) = ([(n, [""])], none) ∧
    (∀ t : GoTime, t.isZero = true →
      Values (fuel + 5) (.vstruct [StructField.mk n ⟨"", "", "", ""⟩ false ""
        (.vtime t)]) = ([(n, [""])], none)) ∧
    Values (fuel + 5) (.vstruct [StructField.mk n ⟨"", "", "", ""⟩ false ""
        .vptrNil]) = ([(n, [""])], none) ∧
    Values (fuel + 5) (.vstruct [StructField.mk n ⟨"", "", "", ""⟩ false ""
        (.vint 0)]) = ([(n, ["0"])], none) ∧
    Values (fuel + 5) (.vstruct [StructField.mk n ⟨"", "", "", ""⟩ false ""
        (.vbool false)]) = ([(n, ["false"])], none) ∧
    Values (fuel + 5) (.vstruct [StructField.mk n ⟨"", "", "", ""⟩ false ""
        (.vlist [])]) = ([], none) ∧
    Values (fuel + 5) (.vstruct [StructField.mk n ⟨"", "", "", ""⟩ false ""
        (.vmap [])]) = ([], none) ∧
    Values (fuel + 5) (.vstruct [StructField.mk n ⟨"", "", "", ""⟩ false ""
        (.vstruct [])]) = ([], none) ∧
    (∀ v : Value, isEmptyValue v = true →
      Values (fuel + 5) (.vstruct [StructField.mk n ⟨",omitempty", "", "", ""⟩ false ""
        v]) = ([], none)) := by
  have hp0 : parseTag "" ⟨"", "", "", ""⟩ = ("", ⟨[], ⟨"", "", "", ""⟩⟩) := rfl
  have hpo : parseTag ",omitempty" ⟨",omitempty", "", "", ""⟩ =
      ("", ⟨[("omitempty", "")], ⟨",omitempty", "", "", ""⟩⟩) := rfl
  refine ⟨?_, fun t ht => ?_, ?_, ?_, ?_, ?_, ?_, ?_, fun v hv => ?_⟩ <;>
    simp +decide [Values, ValuesDeref, reflectValue, reflectStruct, reflectStructFields,
      reflectEmbedded, reflectMap, reflectMapLoop, hp0, hpo,
      StructField.pkgPath, StructField.anonymous, StructField.tag, StructField.name,
      StructField.value, StructTag.get, optsContains, kvsHas, isEmptyValue, derefField,
      valueString, indirect, UrlValues.add, *]

/-- C2 witness: the implication clauses of `C2_zero_value_fields`
discharged at a concrete zero time and a concrete empty value. -/
theorem C2_zero_value_fields_witness :
    Values 5 (.vstruct [StructField.mk "V" ⟨"", "", "", ""⟩ false ""
        (.vtime ⟨true, 0, 0, fun _ => "zero"⟩)]) = ([("V", [""])], none) ∧
    Values 5 (.vstruct [StructField.mk "V" ⟨",omitempty", "", "", ""⟩ false ""
        (.vint 0)]) = ([], none) := by
  refine ⟨(C2_zero_value_fields 0 "V").2.1 ⟨true, 0, 0, fun _ => "zero"⟩ rfl, ?_⟩
  exact (C2_zero_value_fields 0 "V").2.2.2.2.2.2.2.2 (.vint 0) (by decide)

/-- A scoped key `s ++ "[" ++ a ++ "]"` is never the empty string. -/
theorem bracketed_ne_empty (s a : String) : (s ++ "[" ++ a ++ "]" = "") = False := by
  refine eq_false fun h => ?_
  have hl := congrArg String.length h
  simp [String.length_append] at hl
  exact absurd hl.2 (by decide)

/-- C7: for a map- or struct-valued field the scope of the recursive
call follows the inline rule.  First two conjuncts (map value, then
struct value, both without an explicit tag name): when the tag requests
inline the next scope is the parent scope at positive depth and empty
at depth 0, otherwise it is the own scoped key of the field; the written key
then joins the inner name onto that scope when it is non-empty.  Third
conjunct: with an explicit tag name (`pg`) the inline flag is ignored
and the next scope is always the own scoped key of the field. -/
theorem C7_inline_scope (fuel count : Nat) (scope : String) (vs : UrlValues) (inl : Bool) :
    reflectStruct (fuel + 6) vs
      [StructField.mk "Pages" ⟨(if inl then ",inline" else ""), "", "", ""⟩ false ""
        (.vmap [(.vstr "k", .vstr "w")])] scope count =
      (vs.add
        (if (if inl then (if count > 0 then scope else "")
              else (if scope ≠ "" then scope ++ "[" ++ "Pages" ++ "]" else "Pages")) ≠ "" then
          (if inl then (if count > 0 then scope else "")
            else (if scope ≠ "" then scope ++ "[" ++ "Pages" ++ "]" else "Pages")) ++
            "[" ++ "k" ++ "]"
         else "k") "w", none) ∧
    reflectStruct (fuel + 6) vs
      [StructField.mk "Pages" ⟨(if inl then ",inline" else ""), "", "", ""⟩ false ""
        (.vstruct [StructField.mk "Val" ⟨"val", "", "", ""⟩ false "" (.vstr "w")])] scope count =
      (vs.add
        (if (if inl then (if count > 0 then scope else "")
              else (if scope ≠ "" then scope ++ "[" ++ "Pages" ++ "]" else "Pages")) ≠ "" then
          (if inl then (if count > 0 then scope else "")
            else (if scope ≠ "" then scope ++ "[" ++ "Pages" ++ "]" else "Pages")) ++
            "[" ++ "val" ++ "]"
         else "val") "w", none) ∧
    reflectStruct (fuel + 6) vs
      [StructField.mk "Pages" ⟨(if inl then "pg,inline" else "pg"), "", "", ""⟩ false ""
        (.vmap [(.vstr "k", .vstr "w")])] scope count =
      (vs.add
        ((if scope ≠ "" then scope ++ "[" ++ "pg" ++ "]" else "pg") ++ "[" ++ "k" ++ "]")
        "w", none) := by
  have hpi : parseTag ",inline" ⟨",inline", "", "", ""⟩ =
      ("", ⟨[("inline", "")], ⟨",inline", "", "", ""⟩⟩) := rfl
  have hp0 : parseTag "" ⟨"", "", "", ""⟩ = ("", ⟨[], ⟨"", "", "", ""⟩⟩) := rfl
  have hpgi : parseTag "pg,inline" ⟨"pg,inline", "", "", ""⟩ =
      ("pg", ⟨[("inline", "")], ⟨"pg,inline", "", "", ""⟩⟩) := rfl
  have hpg : parseTag "pg" ⟨"pg", "", "", ""⟩ = ("pg", ⟨[], ⟨"pg", "", "", ""⟩⟩) := rfl
  have hpv : parseTag "val" ⟨"val", "", "", ""⟩ = ("val", ⟨[], ⟨"val", "", "", ""⟩⟩) := rfl
  cases inl <;>
    refine ⟨?_, ?_, ?_⟩ <;>
    · by_cases hs : scope = "" <;> rcases count with _ | c <;>
        simp +decide [Values, reflectStruct, reflectStructFields, reflectEmbedded,
          reflectMap, reflectMapLoop, hpi, hp0, hpgi, hpg, hpv,
          StructField.pkgPath, StructField.anonymous, StructField.tag, StructField.name,
          StructField.value, StructTag.get, optsContains, kvsHas, isEmptyValue, derefField,
          valueString, indirect, UrlValues.add, defaultScopeJoiner, bracketed_ne_empty, hs]

/-- C8 counterexample: the claim says root pair mode consumes the
elements two at a time, so `["", "a", "b"]` would pair `""` with `"a"`
and drop the trailing `"b"`.  The code first skips the empty element on
its own, then pairs `"a"` with `"b"`, so the results differ. -/
theorem C8_counterexample :
    Values 100 (.vlist [.vstr "", .vstr "a", .vstr "b"]) = ([("a", ["b"])], none) ∧
    pairModeClaim [] ["", "a", "b"] = [("", ["a"])] ∧
    ([("a", ["b"])] : UrlValues) ≠ [("", ["a"])] := by decide

/-- A string whose length is zero is the empty string. -/
theorem string_length_eq_zero {s : String} (h : s.length = 0) : s = "" := by
  cases s with
  | mk data =>
    cases data with
    | nil => rfl
    | cons c cs => simp [String.length] at h

set_option maxRecDepth 8000 in
/-- The index loop of `reflectSlice`, run at the root (empty scope, nil
options) over non-empty scalar strings, computes exactly the claim-side
two-at-a-time pairing of the remaining elements. -/
theorem reflectSliceLoop_pairs (ss : List String) (hne : ∀ s ∈ ss, s ≠ "") :
    ∀ fuel i vs, ss.length - i + 2 ≤ fuel →
      reflectSliceLoop fuel vs (ss.map Value.vstr) "" 0 none i =
        (pairModeClaim vs (ss.drop i), none) := by
  intro fuel
  induction fuel with
  | zero => intro i vs h; omega
  | succ f ih =>
    intro i vs h
    by_cases hi : i < ss.length
    · obtain ⟨g, rfl⟩ : ∃ g, f = g + 1 := ⟨f - 1, by omega⟩
      have hne0 : decide (ss[i].length = 0) = false := by
        refine decide_eq_false fun hlen => ?_
        exact hne _ (List.getElem_mem hi) (string_length_eq_zero hlen)
      have hh : handleSliceValue (g + 1) vs (Value.vstr ss[i]) "" 0 none =
          (vs, false, none) := by
        simp [handleSliceValue, isEmptyValue, derefField, hne0]
      have hnd : ¬ i + 1 > ss.length := by omega
      have hdropi := List.drop_eq_getElem_cons (l := ss) hi
      rw [reflectSliceLoop]
      simp only [List.length_map]
      rw [dif_pos hi]
      simp only [List.getElem_map, hh]
      by_cases hlast : i + 1 > ss.length - 1
      · have hdrop1 : ss.drop (i + 1) = [] := List.drop_eq_nil_of_le (by omega)
        have hih := ih (i + 1) vs (by omega)
        rw [if_neg (show ¬ (false = true) by decide), if_neg hnd,
          if_neg (show ¬ (("" : String) ≠ "") by decide), if_pos hlast, hih, hdropi, hdrop1]
        rfl
      · have hi1 : i + 1 < ss.length := by omega
        have hget : (ss.map Value.vstr)[i + 1]? = some (.vstr ss[i + 1]) := by
          simp [List.getElem?_map, List.getElem?_eq_getElem hi1]
        have hih := ih (i + 2) (vs.add ss[i] ss[i + 1]) (by omega)
        have hdropi1 := List.drop_eq_getElem_cons (l := ss) hi1
        rw [if_neg (show ¬ (false = true) by decide), if_neg hnd,
          if_neg (show ¬ (("" : String) ≠ "") by decide), if_neg hlast, hget]
        dsimp only
        rw [show valueString (Value.vstr ss[i]) none = ss[i] from rfl,
          show valueString (Value.vstr ss[i + 1]) none = ss[i + 1] from rfl,
          hih, hdropi, hdropi1]
        rfl
    · have hdrop : ss.drop i = [] := List.drop_eq_nil_of_le (by omega)
      rw [reflectSliceLoop]
      simp only [List.length_map]
      rw [dif_neg hi, hdrop]
      rfl

/-- C8 amended: at the root, a slice runs in pair mode over its
non-empty scalar elements — for every list of non-empty strings the
encoder computes exactly the claim-side two-at-a-time key/value
pairing, a trailing unpaired element dropped.  (Empty elements are
skipped individually before pairing, and container elements recurse
instead of pairing, which is why the claim as stated fails on
`["", "a", "b"]`.) -/
theorem C8_pair_mode (ss : List String) (fuel : Nat) (hne : ∀ s ∈ ss, s ≠ "")
    (hfuel : ss.length + 3 ≤ fuel) :
    Values fuel (.vlist (ss.map Value.vstr)) = (pairModeClaim [] ss, none) := by
  obtain ⟨f, rfl⟩ : ∃ f, fuel = f + 1 := ⟨fuel - 1, by omega⟩
  rcases ss with _ | ⟨s, ss'⟩
  · simp [Values, ValuesDeref, reflectValue, reflectSlice, pairModeClaim]
  · have hloop := reflectSliceLoop_pairs (s :: ss') hne f 0 []
      (by simp only [List.length_cons] at hfuel ⊢; omega)
    simpa [Values, ValuesDeref, reflectValue, reflectSlice] using hloop

/-- C8 witness: the pair-mode refinement applied to the concrete root
slice `["a", "1", "b"]`. -/
theorem C8_pair_mode_witness :
    Values 6 (.vlist (["a", "1", "b"].map Value.vstr)) = ([("a", ["1"])], none) := by
  have h := C8_pair_mode ["a", "1", "b"] 6 (by decide) (by decide)
  rw [h]; decide

/-- C9: rendering a time value honours the priority unix seconds, then
unix milliseconds, then unix nanoseconds, then the sibling `layout`
annotation, then RFC 3339 — the first matching option wins and options
are never combined — and a zero time always renders as the empty
string.  Each conjunct keeps every lower-priority option available
(including a symbolic `layout`), showing it is ignored. -/
theorem C9_time_priority (t : GoTime) (layout : String) :
    valueString (.vtime t)
        (some (parseTag ",unix,unixmilli,unixnano"
          ⟨",unix,unixmilli,unixnano", "", "", layout⟩).2) =
      (if t.isZero then "" else toString t.unixSec) ∧
    valueString (.vtime t)
        (some (parseTag ",unixmilli,unixnano" ⟨",unixmilli,unixnano", "", "", layout⟩).2) =
      (if t.isZero then "" else toString (Int.tdiv t.unixNano 1000000)) ∧
    valueString (.vtime t) (some (parseTag ",unixnano" ⟨",unixnano", "", "", layout⟩).2) =
      (if t.isZero then "" else toString t.unixNano) ∧
    valueString (.vtime t) (some (parseTag "" ⟨"", "", "", layout⟩).2) =
      (if t.isZero then ""
       else if layout ≠ "" then t.format layout else t.format rfc3339) ∧
    valueString (.vtime t) none = (if t.isZero then "" else t.format rfc3339) := by
  have h1 : parseTag ",unix,unixmilli,unixnano" ⟨",unix,unixmilli,unixnano", "", "", layout⟩ =
      ("", ⟨[("unix", ""), ("unixmilli", ""), ("unixnano", "")],
        ⟨",unix,unixmilli,unixnano", "", "", layout⟩⟩) := rfl
  have h2 : parseTag ",unixmilli,unixnano" ⟨",unixmilli,unixnano", "", "", layout⟩ =
      ("", ⟨[("unixmilli", ""), ("unixnano", "")], ⟨",unixmilli,unixnano", "", "", layout⟩⟩) := rfl
  have h3 : parseTag ",unixnano" ⟨",unixnano", "", "", layout⟩ =
      ("", ⟨[("unixnano", "")], ⟨",unixnano", "", "", layout⟩⟩) := rfl
  have h4 : parseTag "" ⟨"", "", "", layout⟩ = ("", ⟨[], ⟨"", "", "", layout⟩⟩) := rfl
  refine ⟨?_, ?_, ?_, ?_, ?_⟩ <;>
    simp +decide [valueString, h1, h2, h3, h4, kvsHas, StructTag.get]

end GhttpQuery
